import Mathlib

/-!
Verification of the command execution and result-normalization layer of the
salesforce-cli-mcp-server repository (src/utils/sfCommand.ts and
src/shared/connection.ts).

The JavaScript/TypeScript source is shallowly embedded: filesystem probes,
the JSON parser and the child-process collaborator are passed in as explicit
function arguments, JavaScript string truthiness is modelled explicitly, and
each exported function becomes a pure Lean function over those inputs.
-/

/-- A JavaScript value produced by JSON.parse, restricted to the fields the
source code ever reads (message, actions, stack, status, exitCode, name for
error payloads; defaultusername for the sfdx config file).  `payload` keeps
distinct parsed documents distinguishable. -/
structure Json where
  message : Option String := none
  actions : Option (List String) := none
  stack : Option String := none
  status : Option Nat := none
  exitCode : Option Nat := none
  name : Option String := none
  defaultusername : Option String := none
  payload : String := ""
  deriving DecidableEq, Repr

/-- What node's `exec` hands the callback: an optional error (spawn failure or
non-zero exit, reduced to its message, the only field the source reads),
stdout and stderr. -/
structure ExecResult where
  error : Option String
  stdout : String
  stderr : String
  deriving DecidableEq, Repr

/-- The process environment variables read by the module (`process.env.HOME`
and `process.env.LOCALAPPDATA`); `none` models an undefined variable. -/
structure Env where
  home : Option String
  localAppData : Option String

/-- The filesystem collaborator: `existsAt` models `existsSync`, `stat` models
`statSync` (`Except.error m` models a thrown error with message `m`,
`Except.ok b` a successful stat with `isDirectory() = b`), `readFile` models
`readFileSync` (`none` models a throw). -/
structure FileSystem where
  existsAt : String → Bool
  stat : String → Except String Bool
  readFile : String → Option String

/-- JavaScript string-truthiness of a possibly-undefined string: `undefined`
and the empty string are falsy. -/
def jsTruthyStr : Option String → Bool
  | none => false
  | some s => !(s == "")

/-- JavaScript string concatenation with a possibly-undefined left operand:
`undefined + s` yields the text "undefined" followed by `s`. -/
def jsEnvStr : Option String → String
  | none => "undefined"
  | some s => s

/-- JavaScript template interpolation of a possibly-undefined string. -/
def jsStrOpt : Option String → String
  | none => "undefined"
  | some s => s

/-- JavaScript `a || b` for a possibly-undefined string `a`: falsy (undefined
or empty) falls through to `b`. -/
def jsOrStr (a : Option String) (b : String) : String :=
  match a with
  | none => b
  | some s => if s = "" then b else s

/-- A character matched by the JavaScript regex class `\s` (also the set
`String.prototype.trim` removes). -/
def jsWhitespace (c : Char) : Bool :=
  c = ' ' || c = '\t' || c = '\n' || c = '\x0b' || c = '\x0c' || c = '\r' ||
  c = '\u00A0' || c = '\u1680' || (decide ('\u2000' ≤ c) && decide (c ≤ '\u200A')) ||
  c = '\u2028' || c = '\u2029' || c = '\u202F' || c = '\u205F' || c = '\u3000' ||
  c = '\uFEFF'

/-- `String.prototype.trim`: strip leading and trailing whitespace. -/
def jsTrim (s : String) : String :=
  ⟨((s.data.dropWhile jsWhitespace).reverse.dropWhile jsWhitespace).reverse⟩

/-- The condition `!orgToUse || !orgToUse.trim()` from buildSfCommand:
undefined, empty, or whitespace-only. -/
def jsBlank : Option String → Bool
  | none => true
  | some s => jsTrim s == ""

/-- The condition `orgToUse && orgToUse.trim()` from buildSfCommand. -/
def jsPresent : Option String → Bool
  | none => false
  | some s => !(jsTrim s == "")

/-- `String.prototype.includes` modelled on character lists: does `needle`
occur contiguously inside the list? -/
def listIncludes (needle : List Char) : List Char → Bool
  | [] => needle.isEmpty
  | c :: rest => needle.isPrefixOf (c :: rest) || listIncludes needle rest

/-- `haystack.includes(needle)` for strings. -/
def jsIncludes (haystack needle : String) : Bool :=
  listIncludes needle.data haystack.data

/-- Number of character positions at which `needle` occurs in the list. -/
def countOcc (needle : List Char) : List Char → Nat
  | [] => 0
  | c :: rest => (if needle.isPrefixOf (c :: rest) then 1 else 0) + countOcc needle rest

/-- `Array.prototype.join(sep)`. -/
def joinSep (sep : String) : List String → String
  | [] => ""
  | [a] => a
  | a :: b :: rest => a ++ sep ++ joinSep sep (b :: rest)

/-- `path.join(a, b)` modelled with the POSIX separator (the separator choice
is irrelevant to every claim, which quantify over the filesystem oracle). -/
def joinPath (a b : String) : String :=
  a ++ "/" ++ b

/-- Does the command match the regex `/^sf\s+/`: the characters `s`, `f`, then
at least one whitespace character? -/
def hasLeadingSf (command : String) : Bool :=
  match command.data with
  | 's' :: 'f' :: c :: _ => jsWhitespace c
  | _ => false

/-- `command.replace(/^sf\s+/, "\"" + sfPath + "\" ")`: when the anchored
pattern matches, the leading `sf` and the whole greedy whitespace run are
replaced by the quoted resolved path and one space; otherwise the command is
returned unchanged. -/
def replaceLeadingSf (sfPath command : String) : String :=
  if hasLeadingSf command then
    ⟨'"' :: sfPath.data ++ '"' :: ' ' :: (command.data.drop 2).dropWhile jsWhitespace⟩
  else command

/-- COMMON_SF_PATHS.darwin, built at module load from the environment. -/
def darwinSfPaths (env : Env) : List String :=
  ["/usr/local/bin/sf", "/opt/homebrew/bin/sf", "/usr/bin/sf",
   jsEnvStr env.home ++ "/.local/bin/sf"]

/-- COMMON_SF_PATHS.linux. -/
def linuxSfPaths (env : Env) : List String :=
  ["/usr/local/bin/sf", "/usr/bin/sf", "/opt/salesforce/cli/bin/sf",
   jsEnvStr env.home ++ "/.local/bin/sf"]

/-- COMMON_SF_PATHS.win32. -/
def win32SfPaths (env : Env) : List String :=
  ["C:\\Program Files\\sf\\bin\\sf.cmd", "C:\\Program Files\\sf\\bin\\sf.exe",
   "C:\\Program Files (x86)\\sf\\bin\\sf.cmd", "C:\\Program Files (x86)\\sf\\bin\\sf.exe",
   jsEnvStr env.localAppData ++ "\\sf\\bin\\sf.cmd",
   jsEnvStr env.localAppData ++ "\\sf\\bin\\sf.exe"]

/-- `COMMON_SF_PATHS[currentPlatform] || COMMON_SF_PATHS.linux`: the candidate
list for the current platform, with the linux list as fallback for any other
platform value. -/
def commonSfPaths (plat : String) (env : Env) : List String :=
  if plat = "darwin" then darwinSfPaths env
  else if plat = "win32" then win32SfPaths env
  else linuxSfPaths env

/-- The probe loop of findSfPath: `for (const path of paths) if (path &&
existsSync(path))` return it. -/
def probePaths (fsExists : String → Bool) : List String → Option String
  | [] => none
  | p :: rest => if !(p == "") && fsExists p then some p else probePaths fsExists rest

/-- findSfPath with the module-level `cachedSfPath` cell made explicit: the
result is the returned path paired with the cache cell after the call. -/
def findSfPath (fsExists : String → Bool) (plat : String) (env : Env)
    (cache : Option String) : String × Option String :=
  if jsTruthyStr cache then (cache.getD "", cache)
  else
    match probePaths fsExists (commonSfPaths plat env) with
    | some p => (p, some p)
    | none => ("sf", some "sf")

/-- The remediation message used when the binary looks absent. -/
def cliNotFoundMessage : String :=
  "Salesforce CLI (sf) not found. Please ensure it is installed and accessible. " ++
  "Visit https://developer.salesforce.com/tools/salesforcecli for installation instructions."

/-- The internal-invariant message for a clean exit with no usable output. -/
def noOutputMessage : String :=
  "No output received from command"

/-- The platform-specific "not found" phrasing test applied to an exec error
message. -/
def isCliNotFound (msg : String) : Bool :=
  jsIncludes msg "command not found" || jsIncludes msg "is not recognized"

/-- The `Actions:` clause of the detailed message, emitted whenever the
actions field is present (a JavaScript array is truthy even when empty). -/
def actionsPart (d : Json) : String :=
  match d.actions with
  | some as => "Actions: " ++ joinSep "\n" as ++ "\n"
  | none => ""

/-- The `Stack:` clause of the detailed message, emitted when the stack field
is truthy (present and non-empty). -/
def stackPart (d : Json) : String :=
  match d.stack with
  | some st => if st = "" then "" else "Stack: " ++ st
  | none => ""

/-- The detailed message synthesized from stderr JSON in executeSfCommand:
`Error: <message>\n` then `Actions: <joined>\n` when actions is present, then
`Stack: <stack>` when stack is truthy. -/
def detailedMessage (d : Json) : String :=
  "Error: " ++ jsStrOpt d.message ++ "\n" ++ actionsPart d ++ stackPart d

/-- The error message synthesized from stdout JSON in
executeSfCommandInProjectRaw when the parsed document reports status 1 or
exitCode 1. -/
def rawJsonErrorMessage (j : Json) : String :=
  jsOrStr j.message (jsOrStr j.name "Command failed") ++
  (match j.actions with
   | some as => "\nSuggested actions:\n" ++ joinSep "\n" as
   | none => "") ++
  (match j.stack with
   | some st => if st = "" then "" else "\nStack trace:\n" ++ st
   | none => "")

/-- The fallthrough of executeSfCommand's callback once stdout yielded no
parsed JSON: the error branch (not-found check, then stderr JSON synthesis,
then the raw error), the stderr branch (skipped when stderr contains
"Warning"), and the final no-output rejection. -/
def classifySfFallback (parse : String → Option Json) (r : ExecResult) :
    Except String Json :=
  match r.error with
  | some em =>
    if isCliNotFound em then .error cliNotFoundMessage
    else
      match parse r.stderr with
      | some d => .error (detailedMessage d)
      | none => .error em
  | none =>
    if !(r.stderr == "") && !(jsIncludes r.stderr "Warning") then
      match parse r.stderr with
      | some d => .error (detailedMessage d)
      | none => .error r.stderr
    else .error noOutputMessage

/-- The whole callback of executeSfCommand: stdout is parsed first and a
successful parse resolves immediately, whatever the error and stderr are. -/
def classifySf (parse : String → Option Json) (r : ExecResult) :
    Except String Json :=
  if !(r.stdout == "") then
    match parse r.stdout with
    | some j => .ok j
    | none => classifySfFallback parse r
  else classifySfFallback parse r

/-- The fallthrough of executeSfCommandInProject's callback: unlike
executeSfCommand it never parses stderr, rejecting with the raw error or the
raw stderr text. -/
def classifyProjectFallback (r : ExecResult) : Except String Json :=
  match r.error with
  | some em =>
    if isCliNotFound em then .error cliNotFoundMessage
    else .error em
  | none =>
    if !(r.stderr == "") && !(jsIncludes r.stderr "Warning") then .error r.stderr
    else .error noOutputMessage

/-- The whole callback of executeSfCommandInProject. -/
def classifyProject (parse : String → Option Json) (r : ExecResult) :
    Except String Json :=
  if !(r.stdout == "") then
    match parse r.stdout with
    | some j => .ok j
    | none => classifyProjectFallback r
  else classifyProjectFallback r

/-- The callback of executeSfCommandRaw: on error, the not-found check runs
first, then the scanner/code-analyzer special case (non-zero exit with stdout
resolves with stdout), then rejection with the raw error; with no error stdout
is resolved verbatim. -/
def classifyRaw (command : String) (r : ExecResult) : Except String String :=
  match r.error with
  | some em =>
    if isCliNotFound em then .error cliNotFoundMessage
    else if !(r.stdout == "") &&
        (jsIncludes command "scanner" || jsIncludes command "code-analyzer") then
      .ok r.stdout
    else .error em
  | none => .ok r.stdout

/-- The callback of executeSfCommandInProjectRaw: like classifyRaw but with an
extra branch that, for commands carrying --json, parses stdout and synthesizes
a message when the document reports status 1 or exitCode 1. -/
def classifyProjectRaw (parse : String → Option Json) (command : String)
    (r : ExecResult) : Except String String :=
  match r.error with
  | some em =>
    if isCliNotFound em then .error cliNotFoundMessage
    else if !(r.stdout == "") &&
        (jsIncludes command "scanner" || jsIncludes command "code-analyzer") then
      .ok r.stdout
    else if !(r.stdout == "") && jsIncludes command "--json" then
      match parse r.stdout with
      | some j =>
        if j.status = some 1 ∨ j.exitCode = some 1 then .error (rawJsonErrorMessage j)
        else .error em
      | none => .error em
    else .error em
  | none => .ok r.stdout

/-- validateProjectPath: the four ordered checks.  The source wraps the
is-a-directory throw in its own try/catch, so that failure surfaces with the
"Cannot access project path: " prefix around the not-a-directory message. -/
def validateProjectPath (fs : FileSystem) (resolveP : String → String)
    (projectPath : String) : Except String Unit :=
  if projectPath == "" || jsTrim projectPath == "" then
    .error "Project path cannot be empty"
  else
    let resolvedPath := resolveP projectPath
    if !(fs.existsAt resolvedPath) then
      .error ("Project path does not exist: " ++ resolvedPath)
    else
      match fs.stat resolvedPath with
      | .error m => .error ("Cannot access project path: " ++ m)
      | .ok isDir =>
        if !isDir then
          .error ("Cannot access project path: Project path is not a directory: " ++
            resolvedPath)
        else
          if !(fs.existsAt (joinPath resolvedPath ".sf")) then
            .error ("Project path does not contain .sf directory. " ++
              "Please ensure this is a valid Salesforce DX project: " ++ resolvedPath)
          else .ok ()

/-- getDefaultUsername: best-effort read of .sfdx/sfdx-config.json, returning
undefined on a missing file, a read failure, a parse failure, or a document
without the field. -/
def getDefaultUsername (fs : FileSystem) (resolveP : String → String)
    (parse : String → Option Json) (projectPath : String) : Option String :=
  let resolvedPath := resolveP projectPath
  let configPath := joinPath (joinPath resolvedPath ".sfdx") "sfdx-config.json"
  if !(fs.existsAt configPath) then none
  else
    match fs.readFile configPath with
    | none => none
    | some content =>
      match parse content with
      | none => none
      | some cfg => cfg.defaultusername

/-- The target identifier buildSfCommand settles on: the explicit targetOrg,
or, when that is blank and a sourcePath is supplied, the project default. -/
def resolvedOrg (fs : FileSystem) (resolveP : String → String)
    (parse : String → Option Json) (targetOrg sourcePath : Option String) :
    Option String :=
  if jsBlank targetOrg && jsTruthyStr sourcePath then
    getDefaultUsername fs resolveP parse (sourcePath.getD "")
  else targetOrg

/-- The target-org segment buildSfCommand appends for a present org value. -/
def orgSegment (org : Option String) : String :=
  if jsPresent org then " --target-org " ++ org.getD "" else ""

/-- buildSfCommand: base, then the optional target-org segment, then --json
unless the command so far already contains it. -/
def buildSfCommand (fs : FileSystem) (resolveP : String → String)
    (parse : String → Option Json) (baseCommand : String)
    (targetOrg sourcePath : Option String) : String :=
  let command := baseCommand ++ orgSegment (resolvedOrg fs resolveP parse targetOrg sourcePath)
  if !(jsIncludes command "--json") then command ++ " --json" else command

/-- The command string executeSfCommand and executeSfCommandRaw hand to exec:
the resolved path substituted for the leading bare `sf`. -/
def sfFullCommand (fs : FileSystem) (plat : String) (env : Env)
    (cache : Option String) (command : String) : String :=
  replaceLeadingSf (findSfPath fs.existsAt plat env cache).1 command

/-- The working-directory prefix the project-scoped variants prepend. -/
def cdCommand (plat resolvedPath : String) : String :=
  if plat = "win32" then "cd /d \"" ++ resolvedPath ++ "\" && "
  else "cd \"" ++ resolvedPath ++ "\" && "

/-- The command string the project-scoped variants hand to exec. -/
def projectFullCommand (fs : FileSystem) (resolveP : String → String)
    (plat : String) (env : Env) (cache : Option String)
    (command projectPath : String) : String :=
  cdCommand plat (resolveP projectPath) ++
    replaceLeadingSf (findSfPath fs.existsAt plat env cache).1 command

/-- executeSfCommand as a whole: resolve the binary, substitute it, run exec,
classify the callback inputs.  The second component is the cache cell after
the call. -/
def executeSfCommand (parse : String → Option Json) (exec : String → ExecResult)
    (fs : FileSystem) (plat : String) (env : Env) (cache : Option String)
    (command : String) : Except String Json × Option String :=
  (classifySf parse (exec (sfFullCommand fs plat env cache command)),
   (findSfPath fs.existsAt plat env cache).2)

/-- executeSfCommandRaw as a whole. -/
def executeSfCommandRaw (exec : String → ExecResult) (fs : FileSystem)
    (plat : String) (env : Env) (cache : Option String) (command : String) :
    Except String String × Option String :=
  (classifyRaw command (exec (sfFullCommand fs plat env cache command)),
   (findSfPath fs.existsAt plat env cache).2)

/-- executeSfCommandInProject as a whole: validation runs first and a
validation failure is surfaced before any process work happens. -/
def executeSfCommandInProject (parse : String → Option Json)
    (exec : String → ExecResult) (fs : FileSystem) (resolveP : String → String)
    (plat : String) (env : Env) (cache : Option String)
    (command projectPath : String) : Except String Json × Option String :=
  match validateProjectPath fs resolveP projectPath with
  | .error m => (.error m, cache)
  | .ok _ =>
    (classifyProject parse
      (exec (projectFullCommand fs resolveP plat env cache command projectPath)),
     (findSfPath fs.existsAt plat env cache).2)

/-- executeSfCommandInProjectRaw as a whole. -/
def executeSfCommandInProjectRaw (parse : String → Option Json)
    (exec : String → ExecResult) (fs : FileSystem) (resolveP : String → String)
    (plat : String) (env : Env) (cache : Option String)
    (command projectPath : String) : Except String String × Option String :=
  match validateProjectPath fs resolveP projectPath with
  | .error m => (.error m, cache)
  | .ok _ =>
    (classifyProjectRaw parse command
      (exec (projectFullCommand fs resolveP plat env cache command projectPath)),
     (findSfPath fs.existsAt plat env cache).2)

/-! Helper lemmas about substring occurrence. -/

theorem isPrefixOf_self (l : List Char) : l.isPrefixOf l = true := by
  induction l with
  | nil => rfl
  | cons c cs ih => simp [List.isPrefixOf, ih]

theorem isPrefixOf_extend (n m j : List Char) (h : n.isPrefixOf m = true) :
    n.isPrefixOf (m ++ j) = true := by
  induction n generalizing m with
  | nil => simp
  | cons d n' ih =>
    cases m with
    | nil => simp at h
    | cons c m' =>
      simp only [List.isPrefixOf, Bool.and_eq_true, beq_iff_eq] at h
      simp only [List.cons_append, List.isPrefixOf, Bool.and_eq_true, beq_iff_eq]
      exact ⟨h.1, ih m' h.2⟩

theorem isPrefixOf_append_split (m n j : List Char)
    (h : n.isPrefixOf (m ++ j) = true) :
    n.isPrefixOf m = true ∨ ∃ k, n = m ++ k ∧ k.isPrefixOf j = true := by
  induction m generalizing n with
  | nil => exact Or.inr ⟨n, rfl, h⟩
  | cons c m' ih =>
    cases n with
    | nil => exact Or.inl (by simp)
    | cons d n' =>
      simp only [List.cons_append, List.isPrefixOf, Bool.and_eq_true, beq_iff_eq] at h
      rcases ih n' h.2 with hl | ⟨k, hk, hkj⟩
      · exact Or.inl (by simp [List.isPrefixOf, h.1, hl])
      · refine Or.inr ⟨k, ?_, hkj⟩
        simp [h.1, hk]

theorem isPrefixOf_append_frontier (n m j : List Char)
    (hhead : ∀ d, j.head? = some d → d ∈ n → False) :
    n.isPrefixOf (m ++ j) = n.isPrefixOf m := by
  cases hp : n.isPrefixOf m with
  | true => exact isPrefixOf_extend n m j hp
  | false =>
    cases hq : n.isPrefixOf (m ++ j) with
    | false => rfl
    | true =>
      exfalso
      rcases isPrefixOf_append_split m n j hq with hl | ⟨k, hk, hkj⟩
      · rw [hl] at hp; exact Bool.noConfusion hp
      · cases k with
        | nil =>
          rw [List.append_nil] at hk
          rw [hk, isPrefixOf_self] at hp
          exact Bool.noConfusion hp
        | cons e k' =>
          cases j with
          | nil => simp at hkj
          | cons f j' =>
            simp only [List.isPrefixOf, Bool.and_eq_true, beq_iff_eq] at hkj
            refine hhead f rfl ?_
            rw [hk, ← hkj.1]
            exact List.mem_append_right m (List.mem_cons_self e k')

theorem listIncludes_nil_needle (l : List Char) : listIncludes [] l = true := by
  cases l <;> simp [listIncludes]

theorem listIncludes_of_isPrefixOf (n l : List Char) (h : n.isPrefixOf l = true) :
    listIncludes n l = true := by
  cases l with
  | nil =>
    cases n with
    | nil => rfl
    | cons d n' => simp at h
  | cons c l' => simp [listIncludes, h]

theorem listIncludes_cons (n : List Char) (c : Char) (rest : List Char) :
    listIncludes n (c :: rest) = (n.isPrefixOf (c :: rest) || listIncludes n rest) := rfl

theorem countOcc_cons (n : List Char) (c : Char) (rest : List Char) :
    countOcc n (c :: rest) =
      (if n.isPrefixOf (c :: rest) then 1 else 0) + countOcc n rest := rfl

theorem listIncludes_extendR (n b j : List Char) (h : listIncludes n b = true) :
    listIncludes n (b ++ j) = true := by
  induction b with
  | nil =>
    have hn : n = [] := by
      cases n with
      | nil => rfl
      | cons d n' => simp [listIncludes] at h
    rw [hn, List.nil_append]
    exact listIncludes_nil_needle _
  | cons c b' ih =>
    rw [listIncludes_cons] at h
    rw [List.cons_append, listIncludes_cons]
    simp only [Bool.or_eq_true] at h ⊢
    rcases h with h1 | h2
    · refine Or.inl ?_
      rw [← List.cons_append]
      exact isPrefixOf_extend n (c :: b') j h1
    · exact Or.inr (ih h2)

theorem listIncludes_sandwich (x t y : List Char) :
    listIncludes t (x ++ t ++ y) = true := by
  induction x with
  | nil =>
    rw [List.nil_append]
    cases t with
    | nil => exact listIncludes_nil_needle _
    | cons d t' =>
      rw [List.cons_append, listIncludes_cons]
      simp only [Bool.or_eq_true]
      refine Or.inl ?_
      rw [← List.cons_append]
      exact isPrefixOf_extend (d :: t') (d :: t') y (isPrefixOf_self _)
  | cons c x' ih =>
    rw [List.cons_append, List.cons_append, listIncludes_cons]
    simp only [Bool.or_eq_true]
    exact Or.inr ih

theorem listIncludes_append_false (n b j : List Char)
    (hb : listIncludes n b = false) (hj : listIncludes n j = false)
    (hhead : ∀ d, j.head? = some d → d ∈ n → False) :
    listIncludes n (b ++ j) = false := by
  induction b with
  | nil => rw [List.nil_append]; exact hj
  | cons c b' ih =>
    rw [listIncludes_cons] at hb
    rw [List.cons_append, listIncludes_cons]
    simp only [Bool.or_eq_false_iff] at hb ⊢
    refine ⟨?_, ih hb.2⟩
    rw [← List.cons_append, isPrefixOf_append_frontier n (c :: b') j hhead]
    exact hb.1

theorem countOcc_append (n b j : List Char)
    (hhead : ∀ d, j.head? = some d → d ∈ n → False) :
    countOcc n (b ++ j) = countOcc n b + countOcc n j := by
  induction b with
  | nil => rw [List.nil_append, countOcc]; omega
  | cons c b' ih =>
    rw [List.cons_append, countOcc_cons, countOcc_cons,
      ← List.cons_append, isPrefixOf_append_frontier n (c :: b') j hhead, ih]
    omega

theorem countOcc_eq_zero (n l : List Char) (h : listIncludes n l = false) :
    countOcc n l = 0 := by
  induction l with
  | nil => rfl
  | cons c l' ih =>
    rw [listIncludes_cons] at h
    simp only [Bool.or_eq_false_iff] at h
    rw [countOcc_cons, h.1, ih h.2]
    simp

theorem joinSep_mem (sep : String) (as : List String) (a : String) (h : a ∈ as) :
    ∃ x y : List Char, (joinSep sep as).data = x ++ a.data ++ y := by
  induction as with
  | nil => cases h
  | cons b rest ih =>
    cases rest with
    | nil =>
      have hab : a = b := by simpa using h
      exact ⟨[], [], by simp [joinSep, hab]⟩
    | cons b2 rest2 =>
      rcases List.mem_cons.mp h with hab | h2
      · exact ⟨[], (sep ++ joinSep sep (b2 :: rest2)).data,
          by simp [joinSep, hab, List.append_assoc]⟩
      · obtain ⟨x, y, hxy⟩ := ih h2
        refine ⟨(b ++ sep).data ++ x, y, ?_⟩
        simp only [joinSep, String.data_append, hxy]
        simp [List.append_assoc]

theorem jsIncludes_sandwich (a t b : String) : jsIncludes (a ++ t ++ b) t = true := by
  unfold jsIncludes
  rw [String.data_append, String.data_append]
  exact listIncludes_sandwich a.data t.data b.data

theorem append_ne_empty (s t : String) (ht : t.data ≠ []) : s ++ t ≠ "" := by
  intro h
  have h1 : (s ++ t).data = ("" : String).data := by rw [h]
  rw [String.data_append] at h1
  exact ht (List.append_eq_nil.mp h1).2

theorem commonSfPaths_ne_empty (plat : String) (env : Env) :
    ∀ p ∈ commonSfPaths plat env, p ≠ "" := by
  intro p hp
  unfold commonSfPaths at hp
  by_cases h1 : plat = "darwin"
  · rw [if_pos h1] at hp
    simp only [darwinSfPaths, List.mem_cons, List.not_mem_nil, or_false] at hp
    rcases hp with rfl | rfl | rfl | rfl
    · decide
    · decide
    · decide
    · exact append_ne_empty _ _ (by decide)
  · rw [if_neg h1] at hp
    by_cases h2 : plat = "win32"
    · rw [if_pos h2] at hp
      simp only [win32SfPaths, List.mem_cons, List.not_mem_nil, or_false] at hp
      rcases hp with rfl | rfl | rfl | rfl | rfl | rfl
      · decide
      · decide
      · decide
      · decide
      · exact append_ne_empty _ _ (by decide)
      · exact append_ne_empty _ _ (by decide)
    · rw [if_neg h2] at hp
      simp only [linuxSfPaths, List.mem_cons, List.not_mem_nil, or_false] at hp
      rcases hp with rfl | rfl | rfl | rfl
      · decide
      · decide
      · decide
      · exact append_ne_empty _ _ (by decide)

theorem probePaths_eq_find (fsExists : String → Bool) (l : List String)
    (h : ∀ p ∈ l, p ≠ "") : probePaths fsExists l = l.find? fsExists := by
  induction l with
  | nil => rfl
  | cons p rest ih =>
    have hp : (p == "") = false := beq_eq_false_iff_ne.mpr (h p (List.mem_cons_self p rest))
    rw [probePaths, hp]
    cases hfs : fsExists p with
    | true => simp [List.find?, hfs]
    | false =>
      simp only [Bool.not_false, Bool.true_and, hfs, if_false]
      rw [ih fun q hq => h q (List.mem_cons_of_mem p hq)]
      simp [List.find?, hfs]

theorem probePaths_some_ne (fsExists : String → Bool) (l : List String) (p : String)
    (h : probePaths fsExists l = some p) : p ≠ "" := by
  induction l with
  | nil => simp [probePaths] at h
  | cons q rest ih =>
    rw [probePaths] at h
    by_cases hg : (!(q == "") && fsExists q) = true
    · rw [if_pos hg] at h
      have hqp : q = p := by simpa using h
      subst hqp
      have : (q == "") = false := by
        cases hq : (q == "") with
        | false => rfl
        | true => rw [hq] at hg; simp at hg
      exact fun he => by rw [he] at this; simp at this
    · rw [if_neg hg] at h
      exact ih h

/-! Claim theorems. -/

/-- C5: for every supported operating-system family, findSfPath (with an empty
cache) returns the first candidate path in that family's ordered list that
exists on the filesystem, and falls back to the bare name "sf" when no
candidate exists. -/
theorem findSfPath_first_existing (fsExists : String → Bool) (plat : String)
    (env : Env)
    (hplat : plat = "darwin" ∨ plat = "linux" ∨ plat = "win32") :
    (findSfPath fsExists plat env none).1 =
      ((commonSfPaths plat env).find? fsExists).getD "sf" := by
  unfold findSfPath
  rw [probePaths_eq_find fsExists _ (commonSfPaths_ne_empty plat env)]
  cases h : List.find? fsExists (commonSfPaths plat env) <;>
    simp [jsTruthyStr, h]

/-- Witness for C5: on a linux filesystem where only /usr/bin/sf exists, the
resolver returns /usr/bin/sf (the second linux candidate, the first that
exists). -/
theorem findSfPath_first_existing_witness :
    (findSfPath (fun p => p == "/usr/bin/sf") "linux" ⟨some "/home/u", none⟩ none).1 =
      "/usr/bin/sf" := by
  rw [findSfPath_first_existing (fun p => p == "/usr/bin/sf") "linux"
    ⟨some "/home/u", none⟩ (Or.inr (Or.inl rfl))]
  rfl

/-- C6: the executable-path cache is never invalidated: starting from the
empty cache, a second call through the returned cache cell yields the same
path as the first call, whatever the filesystem looks like at the second call
(in particular after any mutation). -/
theorem findSfPath_cache_stable (fs1 fs2 : String → Bool) (plat : String)
    (env : Env) :
    (findSfPath fs2 plat env (findSfPath fs1 plat env none).2).1 =
      (findSfPath fs1 plat env none).1 := by
  cases hpb : probePaths fs1 (commonSfPaths plat env) with
  | some p =>
    have hp : p ≠ "" := probePaths_some_ne fs1 _ p hpb
    have hbeq : (p == "") = false := beq_eq_false_iff_ne.mpr hp
    have h1 : findSfPath fs1 plat env none = (p, some p) := by
      unfold findSfPath
      rw [hpb]
      rfl
    rw [h1]
    unfold findSfPath
    simp [jsTruthyStr, hbeq]
  | none =>
    have h1 : findSfPath fs1 plat env none = ("sf", some "sf") := by
      unfold findSfPath
      rw [hpb]
      rfl
    rw [h1]
    unfold findSfPath
    simp [jsTruthyStr]

theorem jsIncludes_of_data_decomp (s t : String) (x y : List Char)
    (h : s.data = x ++ t.data ++ y) : jsIncludes s t = true := by
  unfold jsIncludes
  rw [h]
  exact listIncludes_sandwich x t.data y

theorem detailedMessage_has_message (d : Json) (m : String)
    (hm : d.message = some m) : jsIncludes (detailedMessage d) m = true := by
  apply jsIncludes_of_data_decomp _ _ "Error: ".data
    (("\n" ++ actionsPart d ++ stackPart d).data)
  simp [detailedMessage, hm, jsStrOpt, List.append_assoc]

theorem detailedMessage_has_action (d : Json) (as : List String) (a : String)
    (has : d.actions = some as) (hmem : a ∈ as) :
    jsIncludes (detailedMessage d) a = true := by
  obtain ⟨x, y, hxy⟩ := joinSep_mem "\n" as a hmem
  apply jsIncludes_of_data_decomp _ _
    (("Error: " ++ jsStrOpt d.message ++ "\n" ++ "Actions: ").data ++ x)
    (y ++ ("\n" ++ stackPart d).data)
  simp [detailedMessage, actionsPart, has, hxy, List.append_assoc]

theorem detailedMessage_has_stack (d : Json) (st : String)
    (hst : d.stack = some st) : jsIncludes (detailedMessage d) st = true := by
  by_cases hempty : st = ""
  · subst hempty
    unfold jsIncludes
    exact listIncludes_nil_needle _
  · apply jsIncludes_of_data_decomp _ _
      (("Error: " ++ jsStrOpt d.message ++ "\n" ++ actionsPart d ++ "Stack: ").data) []
    simp [detailedMessage, stackPart, hst, hempty, List.append_assoc]

deriving instance DecidableEq for Except

/-- A filesystem in which only the project directory /proj and its .sf marker
exist; used to drive the invokers through a passing validation. -/
def projFs : FileSystem :=
  ⟨fun p => p == "/proj" || p == "/proj/.sf", fun _ => .ok true, fun _ => none⟩

/-- A filesystem with nothing on it. -/
def emptyFs : FileSystem :=
  ⟨fun _ => false, fun _ => .error "ENOENT", fun _ => none⟩

/-- An environment with neither HOME nor LOCALAPPDATA set. -/
def bareEnv : Env := ⟨none, none⟩

/-- C1: for the structured-output invokers, a non-empty stdout that parses as
JSON always resolves with the parsed payload, whatever the exec error and
stderr are; for the project variant this is stated for invocations whose
path validation passes (otherwise no process is spawned). -/
theorem stdout_json_wins (parse : String → Option Json) (exec : String → ExecResult)
    (fs : FileSystem) (resolveP : String → String) (plat : String) (env : Env)
    (cache : Option String) (command projectPath : String) (j : Json) :
    ((exec (sfFullCommand fs plat env cache command)).stdout ≠ "" →
      parse (exec (sfFullCommand fs plat env cache command)).stdout = some j →
      (executeSfCommand parse exec fs plat env cache command).1 = .ok j) ∧
    (validateProjectPath fs resolveP projectPath = .ok () →
      (exec (projectFullCommand fs resolveP plat env cache command projectPath)).stdout ≠ "" →
      parse (exec (projectFullCommand fs resolveP plat env cache command projectPath)).stdout
        = some j →
      (executeSfCommandInProject parse exec fs resolveP plat env cache
        command projectPath).1 = .ok j) := by
  constructor
  · intro hne hp
    have hb : ((exec (sfFullCommand fs plat env cache command)).stdout == "") = false :=
      beq_eq_false_iff_ne.mpr hne
    simp [executeSfCommand, classifySf, hb, hp]
  · intro hv hne hp
    have hb : ((exec (projectFullCommand fs resolveP plat env cache
        command projectPath)).stdout == "") = false :=
      beq_eq_false_iff_ne.mpr hne
    unfold executeSfCommandInProject
    rw [hv]
    simp [classifyProject, hb, hp]

/-- The JSON payload used by the C1 witness. -/
def w1Json : Json := { payload := "records" }

/-- A parser that recognises only the literal stdout used by the C1 witness. -/
def w1Parse : String → Option Json :=
  fun s => if s = "OUT" then some w1Json else none

/-- An exec behaviour with a non-zero exit, stdout that parses, and noisy
stderr. -/
def w1Exec : String → ExecResult :=
  fun _ => ⟨some "Command failed: exit 1", "OUT", "some stderr noise"⟩

/-- Witness for C1: both structured invokers resolve with the parsed payload
despite the non-zero exit and the non-empty stderr. -/
theorem stdout_json_wins_witness :
    (executeSfCommand w1Parse w1Exec projFs "linux" bareEnv none "sf org list").1
      = .ok w1Json ∧
    (executeSfCommandInProject w1Parse w1Exec projFs id "linux" bareEnv none
      "sf org list" "/proj").1 = .ok w1Json :=
  ⟨(stdout_json_wins w1Parse w1Exec projFs id "linux" bareEnv none
      "sf org list" "/proj" w1Json).1 (by decide) (by decide),
   (stdout_json_wins w1Parse w1Exec projFs id "linux" bareEnv none
      "sf org list" "/proj" w1Json).2 (by decide) (by decide) (by decide)⟩

/-- C10: for the structured-output invokers, when the process reports no
error, stdout yields no parsed JSON, and stderr contains the substring
"Warning" anywhere, the stderr content is ignored entirely and the outcome is
the NoOutput failure. -/
theorem warning_stderr_ignored (parse : String → Option Json)
    (exec : String → ExecResult) (fs : FileSystem) (resolveP : String → String)
    (plat : String) (env : Env) (cache : Option String)
    (command projectPath : String) :
    ((exec (sfFullCommand fs plat env cache command)).error = none →
      ((exec (sfFullCommand fs plat env cache command)).stdout = "" ∨
        parse (exec (sfFullCommand fs plat env cache command)).stdout = none) →
      jsIncludes (exec (sfFullCommand fs plat env cache command)).stderr "Warning" = true →
      (executeSfCommand parse exec fs plat env cache command).1 = .error noOutputMessage) ∧
    (validateProjectPath fs resolveP projectPath = .ok () →
      (exec (projectFullCommand fs resolveP plat env cache command projectPath)).error = none →
      ((exec (projectFullCommand fs resolveP plat env cache command projectPath)).stdout = "" ∨
        parse (exec (projectFullCommand fs resolveP plat env cache
          command projectPath)).stdout = none) →
      jsIncludes (exec (projectFullCommand fs resolveP plat env cache
        command projectPath)).stderr "Warning" = true →
      (executeSfCommandInProject parse exec fs resolveP plat env cache
        command projectPath).1 = .error noOutputMessage) := by
  constructor
  · intro herr hpar hw
    have hfall : classifySfFallback parse (exec (sfFullCommand fs plat env cache command))
        = .error noOutputMessage := by
      unfold classifySfFallback
      rw [herr, hw]
      simp
    unfold executeSfCommand classifySf
    rcases hpar with h0 | h1
    · simp [h0, hfall]
    · by_cases h0 : (exec (sfFullCommand fs plat env cache command)).stdout = ""
      · simp [h0, hfall]
      · simp [beq_eq_false_iff_ne.mpr h0, h1, hfall]
  · intro hv herr hpar hw
    have hfall : classifyProjectFallback
        (exec (projectFullCommand fs resolveP plat env cache command projectPath))
        = .error noOutputMessage := by
      unfold classifyProjectFallback
      rw [herr, hw]
      simp
    unfold executeSfCommandInProject
    rw [hv]
    unfold classifyProject
    rcases hpar with h0 | h1
    · simp [h0, hfall]
    · by_cases h0 : (exec (projectFullCommand fs resolveP plat env cache
          command projectPath)).stdout = ""
      · simp [h0, hfall]
      · simp [beq_eq_false_iff_ne.mpr h0, h1, hfall]

/-- An exec behaviour with a clean exit, unparseable stdout, and a stderr that
mixes a warning with genuine error text. -/
def w10Exec : String → ExecResult :=
  fun _ => ⟨none, "", "Warning: deprecated flag\nError: something real"⟩

/-- A parser that never succeeds. -/
def noParse : String → Option Json := fun _ => none

/-- Witness for C10: both structured invokers report NoOutput even though the
stderr content includes genuine error text next to the warning. -/
theorem warning_stderr_ignored_witness :
    (executeSfCommand noParse w10Exec projFs "linux" bareEnv none "sf org list").1
      = .error noOutputMessage ∧
    (executeSfCommandInProject noParse w10Exec projFs id "linux" bareEnv none
      "sf org list" "/proj").1 = .error noOutputMessage :=
  ⟨(warning_stderr_ignored noParse w10Exec projFs id "linux" bareEnv none
      "sf org list" "/proj").1 (by decide) (Or.inl (by decide)) (by decide),
   (warning_stderr_ignored noParse w10Exec projFs id "linux" bareEnv none
      "sf org list" "/proj").2 (by decide) (by decide) (Or.inl (by decide)) (by decide)⟩

/-- The structured stderr payload used to refute C2 as stated. -/
def c2Json : Json :=
  { message := some "Org not found", actions := some ["Run sf org login"],
    stack := some "Trace-1" }

/-- A parser recognising only the stderr document of the C2 scenario. -/
def c2Parse : String → Option Json :=
  fun s => if s = "ERRJSON" then some c2Json else none

/-- An exec behaviour with a non-zero exit, empty stdout, and structured
stderr. -/
def c2Exec : String → ExecResult :=
  fun _ => ⟨some "exit code 1", "", "ERRJSON"⟩

set_option maxRecDepth 4000

/-- Counterexample to C2 as stated: under no stdout, parseable structured
stderr and a process failure, the project-scoped structured invoker (one of
the four variants the claim quantifies over) rejects with the raw process
error message, which does not include the structured message, actions, or
stack fields — the four variants do not share the stderr-parsing step. -/
theorem stderr_details_dropped_in_project :
    c2Parse "ERRJSON" = some c2Json ∧
    c2Json.message = some "Org not found" ∧
    (executeSfCommandInProject c2Parse c2Exec projFs id "linux" bareEnv none
      "sf org list" "/proj").1 = .error "exit code 1" ∧
    jsIncludes "exit code 1" "Org not found" = false := by
  refine ⟨by decide, by decide, by decide, by decide⟩

/-- C2 amended: for the plain structured invoker executeSfCommand (alone among
the four variants), given no stdout, a process failure whose message does not
carry the executable-missing phrasing, and stderr that parses as structured
data, the invocation fails with the synthesized detailed message, which
includes the payload's message, each suggested action, and the stack trace
whenever those fields are present. -/
theorem stderr_json_detailed (parse : String → Option Json)
    (exec : String → ExecResult) (fs : FileSystem) (plat : String) (env : Env)
    (cache : Option String) (command : String) (d : Json) (em : String) :
    (exec (sfFullCommand fs plat env cache command)).stdout = "" →
    (exec (sfFullCommand fs plat env cache command)).error = some em →
    isCliNotFound em = false →
    parse (exec (sfFullCommand fs plat env cache command)).stderr = some d →
    (executeSfCommand parse exec fs plat env cache command).1
      = .error (detailedMessage d) ∧
    (∀ m, d.message = some m → jsIncludes (detailedMessage d) m = true) ∧
    (∀ as a, d.actions = some as → a ∈ as → jsIncludes (detailedMessage d) a = true) ∧
    (∀ st, d.stack = some st → jsIncludes (detailedMessage d) st = true) := by
  intro hout herr hnf hparse
  refine ⟨?_, ?_, ?_, ?_⟩
  · unfold executeSfCommand classifySf classifySfFallback
    rw [hout, herr]
    simp [hnf, hparse]
  · intro m hm
    exact detailedMessage_has_message d m hm
  · intro as a has hmem
    exact detailedMessage_has_action d as a has hmem
  · intro st hst
    exact detailedMessage_has_stack d st hst

/-- Witness for the amended C2: executeSfCommand synthesizes the detailed
message from the structured stderr, and that message carries the payload's
message, action, and stack texts. -/
theorem stderr_json_detailed_witness :
    (executeSfCommand c2Parse c2Exec emptyFs "linux" bareEnv none "sf org list").1
      = .error (detailedMessage c2Json) ∧
    jsIncludes (detailedMessage c2Json) "Org not found" = true ∧
    jsIncludes (detailedMessage c2Json) "Run sf org login" = true ∧
    jsIncludes (detailedMessage c2Json) "Trace-1" = true := by
  have h := stderr_json_detailed c2Parse c2Exec emptyFs "linux" bareEnv none
    "sf org list" c2Json "exit code 1" (by decide) (by decide) (by decide) (by decide)
  exact ⟨h.1, h.2.1 "Org not found" (by decide),
    h.2.2.1 ["Run sf org login"] "Run sf org login" (by decide) (by decide),
    h.2.2.2 "Trace-1" (by decide)⟩

/-- An exec behaviour whose failure message carries the "command not found"
phrasing while stdout is non-empty. -/
def c3Exec : String → ExecResult :=
  fun _ => ⟨some "sh: sf: command not found", "violations found", ""⟩

/-- Counterexample to C3 as stated: for a scanner command with a process
failure and non-empty stdout, the raw invoker still rejects (with the
executable-not-found remediation message) when the failure message carries the
not-found phrasing, because that check runs before the analysis-subcommand
special case. -/
theorem scanner_preempted_by_notfound :
    jsIncludes "sf scanner run" "scanner" = true ∧
    c3Exec (sfFullCommand emptyFs "linux" bareEnv none "sf scanner run") =
      ⟨some "sh: sf: command not found", "violations found", ""⟩ ∧
    (executeSfCommandRaw c3Exec emptyFs "linux" bareEnv none "sf scanner run").1
      = .error cliNotFoundMessage ∧
    (executeSfCommandRaw c3Exec emptyFs "linux" bareEnv none "sf scanner run").1
      ≠ .ok "violations found" := by
  refine ⟨by decide, by decide, by decide, by decide⟩

/-- C3 amended: for both raw invokers, a command containing an
analysis-subcommand indicator ("scanner" or "code-analyzer") with a process
failure whose message does not carry the executable-missing phrasing and a
non-empty stdout resolves successfully with that stdout verbatim; the project
variant is stated for invocations whose path validation passes. -/
theorem scanner_nonzero_stdout_success (parse : String → Option Json)
    (exec : String → ExecResult) (fs : FileSystem) (resolveP : String → String)
    (plat : String) (env : Env) (cache : Option String)
    (command projectPath : String) (em : String) :
    ((exec (sfFullCommand fs plat env cache command)).error = some em →
      isCliNotFound em = false →
      (jsIncludes command "scanner" = true ∨ jsIncludes command "code-analyzer" = true) →
      (exec (sfFullCommand fs plat env cache command)).stdout ≠ "" →
      (executeSfCommandRaw exec fs plat env cache command).1
        = .ok (exec (sfFullCommand fs plat env cache command)).stdout) ∧
    (validateProjectPath fs resolveP projectPath = .ok () →
      (exec (projectFullCommand fs resolveP plat env cache command projectPath)).error
        = some em →
      isCliNotFound em = false →
      (jsIncludes command "scanner" = true ∨ jsIncludes command "code-analyzer" = true) →
      (exec (projectFullCommand fs resolveP plat env cache command projectPath)).stdout ≠ "" →
      (executeSfCommandInProjectRaw parse exec fs resolveP plat env cache
        command projectPath).1
        = .ok (exec (projectFullCommand fs resolveP plat env cache
            command projectPath)).stdout) := by
  constructor
  · intro herr hnf hind hout
    unfold executeSfCommandRaw classifyRaw
    rw [herr]
    rcases hind with hs | hs <;>
      simp [hnf, hs, beq_eq_false_iff_ne.mpr hout]
  · intro hv herr hnf hind hout
    unfold executeSfCommandInProjectRaw
    rw [hv]
    unfold classifyProjectRaw
    rw [herr]
    rcases hind with hs | hs <;>
      simp [hnf, hs, beq_eq_false_iff_ne.mpr hout]

/-- An exec behaviour with an ordinary non-zero-exit failure and scanner
output on stdout. -/
def w3Exec : String → ExecResult :=
  fun _ => ⟨some "Command failed: exit 3", "3 violations", ""⟩

/-- Witness for the amended C3: both raw invokers resolve with the scanner
output despite the non-zero exit. -/
theorem scanner_nonzero_stdout_success_witness :
    (executeSfCommandRaw w3Exec projFs "linux" bareEnv none "sf scanner run").1
      = .ok "3 violations" ∧
    (executeSfCommandInProjectRaw noParse w3Exec projFs id "linux" bareEnv none
      "sf scanner run" "/proj").1 = .ok "3 violations" :=
  ⟨(scanner_nonzero_stdout_success noParse w3Exec projFs id "linux" bareEnv none
      "sf scanner run" "/proj" "Command failed: exit 3").1
      (by decide) (by decide) (Or.inl (by decide)) (by decide),
   (scanner_nonzero_stdout_success noParse w3Exec projFs id "linux" bareEnv none
      "sf scanner run" "/proj" "Command failed: exit 3").2
      (by decide) (by decide) (by decide) (Or.inl (by decide)) (by decide)⟩

/-- C4: validateProjectPath performs its four checks in order, short-circuiting
on the first failure: (1) an empty or whitespace-only path fails with the
InvalidInput message independently of the filesystem (it is never probed);
(2) a path whose resolution does not exist fails with the PathNotFound
message; (3) an existing non-directory entry fails with the NotADirectory
message (which the source surfaces wrapped in its catch's "Cannot access"
prefix); (4) a directory without the .sf marker directly beneath it fails with
the NotAProject message; and a path passing all four checks succeeds. -/
theorem validateProjectPath_checks (fs : FileSystem) (resolveP : String → String)
    (p : String) :
    (jsTrim p = "" → ∀ gs : FileSystem,
      validateProjectPath gs resolveP p = .error "Project path cannot be empty") ∧
    (jsTrim p ≠ "" → fs.existsAt (resolveP p) = false →
      validateProjectPath fs resolveP p
        = .error ("Project path does not exist: " ++ resolveP p)) ∧
    (jsTrim p ≠ "" → fs.existsAt (resolveP p) = true →
      fs.stat (resolveP p) = .ok false →
      validateProjectPath fs resolveP p
        = .error ("Cannot access project path: Project path is not a directory: "
            ++ resolveP p)) ∧
    (jsTrim p ≠ "" → fs.existsAt (resolveP p) = true →
      fs.stat (resolveP p) = .ok true →
      fs.existsAt (joinPath (resolveP p) ".sf") = false →
      validateProjectPath fs resolveP p
        = .error ("Project path does not contain .sf directory. " ++
            "Please ensure this is a valid Salesforce DX project: " ++ resolveP p)) ∧
    (jsTrim p ≠ "" → fs.existsAt (resolveP p) = true →
      fs.stat (resolveP p) = .ok true →
      fs.existsAt (joinPath (resolveP p) ".sf") = true →
      validateProjectPath fs resolveP p = .ok ()) := by
  refine ⟨?_, ?_, ?_, ?_, ?_⟩
  · intro ht gs
    unfold validateProjectPath
    simp [ht]
  · intro ht hex
    have hp : p ≠ "" := fun he => ht (by rw [he]; rfl)
    unfold validateProjectPath
    simp [beq_eq_false_iff_ne.mpr ht, beq_eq_false_iff_ne.mpr hp, hex]
  · intro ht hex hstat
    have hp : p ≠ "" := fun he => ht (by rw [he]; rfl)
    unfold validateProjectPath
    simp [beq_eq_false_iff_ne.mpr ht, beq_eq_false_iff_ne.mpr hp, hex, hstat]
  · intro ht hex hstat hsf
    have hp : p ≠ "" := fun he => ht (by rw [he]; rfl)
    unfold validateProjectPath
    simp [beq_eq_false_iff_ne.mpr ht, beq_eq_false_iff_ne.mpr hp, hex, hstat, hsf]
  · intro ht hex hstat hsf
    have hp : p ≠ "" := fun he => ht (by rw [he]; rfl)
    unfold validateProjectPath
    simp [beq_eq_false_iff_ne.mpr ht, beq_eq_false_iff_ne.mpr hp, hex, hstat, hsf]

/-- A filesystem holding /a as a directory with no .sf marker beneath it. -/
def w4Fs : FileSystem := ⟨fun q => q == "/a", fun _ => .ok true, fun _ => none⟩

/-- Witness for C4: a whitespace-only path yields the InvalidInput failure for
an arbitrary filesystem, and a directory without the marker yields the
NotAProject failure. -/
theorem validateProjectPath_checks_witness :
    validateProjectPath emptyFs id " " = .error "Project path cannot be empty" ∧
    validateProjectPath w4Fs id "/a"
      = .error ("Project path does not contain .sf directory. " ++
          "Please ensure this is a valid Salesforce DX project: " ++ id "/a") :=
  ⟨(validateProjectPath_checks w4Fs id " ").1 (by decide) emptyFs,
   (validateProjectPath_checks w4Fs id "/a").2.2.2.1
     (by decide) (by decide) (by decide) (by decide)⟩

/-- C9: the executable-path substitution applies only to commands matching the
`/^sf\s+/` pattern: any other command string passes through replaceLeadingSf
unchanged, so the plain invokers (which hand sfFullCommand to exec) execute
the text verbatim and the project invokers (which hand projectFullCommand to
exec) execute it verbatim after the working-directory prefix, with no
substitution of the resolved path anywhere. -/
theorem no_sf_lead_no_substitution (fs : FileSystem) (resolveP : String → String)
    (plat : String) (env : Env) (cache : Option String)
    (sfPath command projectPath : String) :
    hasLeadingSf command = false →
    replaceLeadingSf sfPath command = command ∧
    sfFullCommand fs plat env cache command = command ∧
    projectFullCommand fs resolveP plat env cache command projectPath
      = cdCommand plat (resolveP projectPath) ++ command := by
  intro h
  have h1 : ∀ q, replaceLeadingSf q command = command := fun q => by
    unfold replaceLeadingSf
    rw [h]
    simp
  exact ⟨h1 _, by unfold sfFullCommand; exact h1 _,
    by unfold projectFullCommand; rw [h1 _]⟩

/-- Witness for C9: a command not led by `sf` (here git, with `sf` appearing
later in the string) is executed unchanged by both command preparations. -/
theorem no_sf_lead_no_substitution_witness :
    sfFullCommand emptyFs "linux" bareEnv none "git status sf " = "git status sf " ∧
    projectFullCommand emptyFs id "linux" bareEnv none "git status sf " "/proj"
      = cdCommand "linux" (id "/proj") ++ "git status sf " :=
  ⟨(no_sf_lead_no_substitution emptyFs id "linux" bareEnv none "sf"
      "git status sf " "/proj" (by decide)).2.1,
   (no_sf_lead_no_substitution emptyFs id "linux" bareEnv none "sf"
      "git status sf " "/proj" (by decide)).2.2⟩

theorem jsIncludes_append_right_none (base seg needle : String)
    (hb : jsIncludes base needle = false) (hs : jsIncludes seg needle = false)
    (hhead : ∀ d, seg.data.head? = some d → d ∈ needle.data → False) :
    jsIncludes (base ++ seg) needle = false := by
  unfold jsIncludes at hb hs ⊢
  rw [String.data_append]
  exact listIncludes_append_false needle.data base.data seg.data hb hs hhead

theorem getDefaultUsername_none (fs : FileSystem) (resolveP : String → String)
    (parse : String → Option Json) (sp : String)
    (h : fs.existsAt (joinPath (joinPath (resolveP sp) ".sfdx") "sfdx-config.json") = false ∨
      fs.readFile (joinPath (joinPath (resolveP sp) ".sfdx") "sfdx-config.json") = none ∨
      (∀ c, fs.readFile (joinPath (joinPath (resolveP sp) ".sfdx") "sfdx-config.json")
        = some c → parse c = none)) :
    getDefaultUsername fs resolveP parse sp = none := by
  unfold getDefaultUsername
  rcases h with h1 | h2 | h3
  · simp [h1]
  · by_cases he : fs.existsAt (joinPath (joinPath (resolveP sp) ".sfdx") "sfdx-config.json")
    · simp [he, h2]
    · simp [he]
  · by_cases he : fs.existsAt (joinPath (joinPath (resolveP sp) ".sfdx") "sfdx-config.json")
    · simp only [he, Bool.not_true, Bool.false_eq_true, if_false]
      cases hr : fs.readFile (joinPath (joinPath (resolveP sp) ".sfdx") "sfdx-config.json") with
      | none => rfl
      | some c => simp [h3 c hr]
    · simp [he]

/-- C7: when no explicit target is supplied and the project's sfdx config file
is absent, unreadable, or unparseable, buildSfCommand appends no target-org
flag (the built command contains the flag only if the base did, and here the
base is assumed free of it) and still appends --json exactly when the base
does not already contain it. -/
theorem buildSfCommand_no_default_org (fs : FileSystem) (resolveP : String → String)
    (parse : String → Option Json) (base sp : String)
    (h : fs.existsAt (joinPath (joinPath (resolveP sp) ".sfdx") "sfdx-config.json") = false ∨
      fs.readFile (joinPath (joinPath (resolveP sp) ".sfdx") "sfdx-config.json") = none ∨
      (∀ c, fs.readFile (joinPath (joinPath (resolveP sp) ".sfdx") "sfdx-config.json")
        = some c → parse c = none)) :
    (jsIncludes base "--target-org" = false →
      jsIncludes (buildSfCommand fs resolveP parse base none (some sp)) "--target-org"
        = false) ∧
    (jsIncludes base "--json" = false →
      buildSfCommand fs resolveP parse base none (some sp) = base ++ " --json") ∧
    (jsIncludes base "--json" = true →
      buildSfCommand fs resolveP parse base none (some sp) = base) := by
  have hro : resolvedOrg fs resolveP parse none (some sp) = none := by
    unfold resolvedOrg
    by_cases hsp : sp = ""
    · simp [jsBlank, jsTruthyStr, hsp]
    · simp [jsBlank, jsTruthyStr, beq_eq_false_iff_ne.mpr hsp,
        getDefaultUsername_none fs resolveP parse sp h]
  have hseg : orgSegment (resolvedOrg fs resolveP parse none (some sp)) = "" := by
    rw [hro]
    rfl
  have hcmd : ∀ s : String, base ++ orgSegment (resolvedOrg fs resolveP parse none (some sp))
      = base := by
    intro _
    rw [hseg]
    apply String.ext
    rw [String.data_append]
    simp
  have hbuilt : buildSfCommand fs resolveP parse base none (some sp)
      = (if !(jsIncludes base "--json") then base ++ " --json" else base) := by
    unfold buildSfCommand
    rw [hcmd ""]
  refine ⟨?_, ?_, ?_⟩
  · intro htgt
    rw [hbuilt]
    by_cases hj : jsIncludes base "--json"
    · simp [hj, htgt]
    · simp only [hj, Bool.not_false, if_true]
      apply jsIncludes_append_right_none base " --json" "--target-org" htgt (by decide)
      intro d hd hm
      have hdd : d = ' ' := by
        have hh : (" --json" : String).data.head? = some ' ' := rfl
        rw [hh] at hd
        exact (Option.some.inj hd).symm
      subst hdd
      revert hm
      decide
  · intro hj
    rw [hbuilt, hj]
    rfl
  · intro hj
    rw [hbuilt, hj]
    rfl

/-- Witness for C7: with an empty filesystem (so the config file is absent),
no explicit target, and a base without the flags, the built command has no
target-org flag and gains --json. -/
theorem buildSfCommand_no_default_org_witness :
    jsIncludes (buildSfCommand emptyFs id noParse "sf org list" none (some "/p"))
      "--target-org" = false ∧
    buildSfCommand emptyFs id noParse "sf org list" none (some "/p")
      = "sf org list" ++ " --json" :=
  ⟨(buildSfCommand_no_default_org emptyFs id noParse "sf org list" "/p"
      (Or.inl (by decide))).1 (by decide),
   (buildSfCommand_no_default_org emptyFs id noParse "sf org list" "/p"
      (Or.inl (by decide))).2.1 (by decide)⟩

/-- Counterexample to C8 as stated: when the target-org value itself contains
the --json text, the built command carries the flag twice even though the base
already requested structured output — the count is not preserved for every
input. -/
theorem buildSfCommand_json_duplicated :
    jsIncludes "sf data query --json" "--json" = true ∧
    countOcc "--json".data
      (buildSfCommand emptyFs id noParse "sf data query --json"
        (some "--json") none).data = 2 ∧
    countOcc "--json".data "sf data query --json".data = 1 := by
  refine ⟨by decide, by decide, by decide⟩

/-- C8 amended: when the base command already contains --json, buildSfCommand
never appends the flag a second time — the built command is exactly the base
plus the optional target-org segment — and the number of occurrences of the
flag is preserved whenever that appended segment does not itself contain the
flag text (as with any ordinary org identifier). -/
theorem buildSfCommand_json_idempotent (fs : FileSystem) (resolveP : String → String)
    (parse : String → Option Json) (base : String)
    (targetOrg sourcePath : Option String)
    (hj : jsIncludes base "--json" = true) :
    buildSfCommand fs resolveP parse base targetOrg sourcePath
      = base ++ orgSegment (resolvedOrg fs resolveP parse targetOrg sourcePath) ∧
    (jsIncludes (orgSegment (resolvedOrg fs resolveP parse targetOrg sourcePath))
        "--json" = false →
      countOcc "--json".data
          (buildSfCommand fs resolveP parse base targetOrg sourcePath).data
        = countOcc "--json".data base.data) := by
  have hfull : jsIncludes
      (base ++ orgSegment (resolvedOrg fs resolveP parse targetOrg sourcePath))
      "--json" = true := by
    unfold jsIncludes at hj ⊢
    rw [String.data_append]
    exact listIncludes_extendR _ _ _ hj
  have hbuilt : buildSfCommand fs resolveP parse base targetOrg sourcePath
      = base ++ orgSegment (resolvedOrg fs resolveP parse targetOrg sourcePath) := by
    unfold buildSfCommand
    simp [hfull]
  refine ⟨hbuilt, ?_⟩
  intro hseg
  have hz : countOcc "--json".data
      (orgSegment (resolvedOrg fs resolveP parse targetOrg sourcePath)).data = 0 :=
    countOcc_eq_zero _ _ hseg
  have hhead : ∀ d,
      (orgSegment (resolvedOrg fs resolveP parse targetOrg sourcePath)).data.head?
        = some d → d ∈ "--json".data → False := by
    intro d hd hm
    unfold orgSegment at hd
    by_cases hp : jsPresent (resolvedOrg fs resolveP parse targetOrg sourcePath) = true
    · rw [if_pos hp, String.data_append] at hd
      have hdd : d = ' ' := by
        have hh : (" --target-org " : String).data
            = ' ' :: ("--target-org " : String).data := rfl
        rw [hh, List.cons_append, List.head?_cons] at hd
        exact (Option.some.inj hd).symm
      subst hdd
      revert hm
      decide
    · rw [if_neg hp] at hd
      simp at hd
  rw [hbuilt, String.data_append, countOcc_append _ _ _ hhead, hz]
  omega

/-- Witness for the amended C8: with an ordinary org identifier, the built
command keeps exactly one occurrence of the flag. -/
theorem buildSfCommand_json_idempotent_witness :
    countOcc "--json".data
        (buildSfCommand emptyFs id noParse "sf data query --json"
          (some "myorg") none).data
      = countOcc "--json".data "sf data query --json".data :=
  (buildSfCommand_json_idempotent emptyFs id noParse "sf data query --json"
    (some "myorg") none (by decide)).2 (by decide)
